import Mathlib

/-!
Verification of the temporal reconciliation and aggregation engine of the
`open-octopus` repository: the rate schedule (`OctopusClient.get_current_rate`),
the dispatch reconciler (`OctopusClient.get_dispatch_status`), the
saving-session filter (`OctopusClient.get_saving_sessions`) and the consumption
aggregation / cost split of `MenuBarServer.fetch_data` and
`MenuBarServer._calculate_cost`.

Embedding conventions:
- Wall-clock instants are naive local timestamps in whole seconds (`Nat`);
  a calendar day is `t / 86400`, the second-of-day is `t % 86400`.
  Python's `strftime("%H:%M")` string comparison is minute-of-day comparison,
  and `strftime("%Y-%m-%d")` keying is day-number keying.
- Dispatch and saving-session instants are plain `Int` timestamps; the
  source's `astimezone` normalisation maps an instant to the same instant,
  so comparisons are unaffected by it.
- Energy (kWh), rates (pence) and currency are exact rationals `ℚ`; the
  source's floats are embedded exactly, and Python's `round(x, n)`
  (round-half-to-even at `n` decimal places) is modelled on `ℚ`.
- Python's `x or d` on an optional float is falsy at `None` and at `0.0`;
  it is embedded by `pyOr`.
- The dataclass shapes (`Tariff`, `Rate`, `Dispatch`, `DispatchStatus`,
  `SavingSession`, `Consumption`) come from `models.py`, which only declares
  fields; the fields kept here are the ones the verified logic reads.
-/

/-- Seconds in a day. -/
def secondsPerDay : Nat := 86400

/-- Calendar-day number of a timestamp (models `strftime("%Y-%m-%d")` keys). -/
def dayOf (t : Nat) : Nat := t / 86400

/-- Minute of day, 0..1439 (models the `strftime("%H:%M")` string order). -/
def minuteOfDay (t : Nat) : Nat := t % 86400 / 60

/-- Tariff shape from `models.py`, restricted to the fields the verified
logic reads: optional peak/off-peak unit rates (pence/kWh) and the daily
standing charge (pence). The off-peak window is fixed at 23:30–05:30. -/
structure Tariff where
  off_peak_rate : Option ℚ
  peak_rate : Option ℚ
  standing_charge : ℚ
deriving DecidableEq, Repr

/-- `Rate` shape from `models.py`: the result of `get_current_rate`. -/
structure Rate where
  rate : ℚ
  is_off_peak : Bool
  period_end : Nat
  next_rate : ℚ
deriving DecidableEq, Repr

/-- Python's `x or d` for an optional float: `None` and `0.0` are falsy. -/
def pyOr (x : Option ℚ) (d : ℚ) : ℚ :=
  match x with
  | none => d
  | some v => if v = 0 then d else v

/-- `OctopusClient.get_current_rate` (client.py:307-343), with `datetime.now()`
made an explicit argument `now`. `current_time >= "23:30"` is
`1410 ≤ minuteOfDay now`, `current_time < "05:30"` is `minuteOfDay now < 330`;
`(now + timedelta(days=1)).replace(hour=5, minute=30, second=0)` is
`(dayOf (now + 86400)) * 86400 + 19800`, and similarly for the other
`replace` calls. -/
def get_current_rate (tariff : Tariff) (now : Nat) : Rate :=
  let is_off_peak : Bool := decide (1410 ≤ minuteOfDay now) || decide (minuteOfDay now < 330)
  if is_off_peak then
    if 1410 ≤ minuteOfDay now then
      { rate := pyOr tariff.off_peak_rate 7
        is_off_peak := true
        period_end := dayOf (now + 86400) * 86400 + 5 * 3600 + 30 * 60
        next_rate := pyOr tariff.peak_rate 30 }
    else
      { rate := pyOr tariff.off_peak_rate 7
        is_off_peak := true
        period_end := dayOf now * 86400 + 5 * 3600 + 30 * 60
        next_rate := pyOr tariff.peak_rate 30 }
  else
    let pe := dayOf now * 86400 + 23 * 3600 + 30 * 60
    { rate := pyOr tariff.peak_rate 30
      is_off_peak := false
      period_end := if pe ≤ now then pe + 86400 else pe
      next_rate := pyOr tariff.off_peak_rate 7 }

/-- Dispatch shape from `models.py`: a concrete smart-charge interval.
Instants are plain naive timestamps (see the embedding conventions). -/
structure Dispatch where
  start : Int
  endAt : Int
  source : String
deriving DecidableEq, Repr

/-- `DispatchStatus` shape from `models.py`. -/
structure DispatchStatus where
  is_dispatching : Bool
  current_dispatch : Option Dispatch
  next_dispatch : Option Dispatch
deriving DecidableEq, Repr

/-- Loop body of `OctopusClient.get_dispatch_status` (client.py:399-404):
`if d.start <= now_tz <= d.end: current = d`
`elif d.start > now_tz and next_dispatch is None: next_dispatch = d`.
`now.astimezone(d.start.tzinfo)` denotes the same instant as `now`, so the
comparisons are directly against `now`. -/
def dispatchStep (now : Int) (acc : Option Dispatch × Option Dispatch)
    (d : Dispatch) : Option Dispatch × Option Dispatch :=
  if d.start ≤ now ∧ now ≤ d.endAt then (some d, acc.2)
  else if now < d.start ∧ acc.2 = none then (acc.1, some d)
  else acc

/-- `OctopusClient.get_dispatch_status` (client.py:386-410), with the fetched
dispatch list and `datetime.now()` made explicit arguments. -/
def get_dispatch_status (dispatches : List Dispatch) (now : Int) :
    DispatchStatus :=
  let r := dispatches.foldl (dispatchStep now) (none, none)
  { is_dispatching := r.1.isSome
    current_dispatch := r.1
    next_dispatch := r.2 }

/-- The dispatch list `[{10:00, 11:00}, {14:00, 15:00}]` of the reconciliation
scenario, with instants in minutes from midnight. -/
def dispatchScenario : List Dispatch :=
  [⟨600, 660, "smart-charge"⟩, ⟨840, 900, "smart-charge"⟩]

/-- The last element of `ds`, in scan order, whose closed interval
`[start, endAt]` contains `now`. -/
def lastMatching (now : Int) : List Dispatch → Option Dispatch
  | [] => none
  | d :: rest =>
    match lastMatching now rest with
    | some e => some e
    | none => if d.start ≤ now ∧ now ≤ d.endAt then some d else none

/-- SavingSession shape from `models.py`: a demand-response event window.
`start` and `endAt` are the parsed instants with timezone stripped
(`end.replace(tzinfo=None)`), as plain naive timestamps. -/
structure SavingSession where
  code : String
  start : Int
  endAt : Int
  reward_per_kwh : Int
deriving DecidableEq, Repr

/-- Order on saving sessions by start instant (the sort key
`lambda s: s.start` of client.py:461). -/
def sessionLE (a b : SavingSession) : Prop := a.start ≤ b.start

instance : DecidableRel sessionLE := fun a b =>
  inferInstanceAs (Decidable (a.start ≤ b.start))

instance : IsTotal SavingSession sessionLE :=
  ⟨fun a b => Int.le_total a.start b.start⟩

instance : IsTrans SavingSession sessionLE :=
  ⟨fun _ _ _ hab hbc => le_trans hab hbc⟩

/-- `OctopusClient.get_saving_sessions` (client.py:416-461), restricted to
the reconciliation logic: already-parsed events come in as a list, each event
is kept only when `end.replace(tzinfo=None) > now`, and the survivors are
sorted ascending by `start`. (Python's `sorted` is a stable sort; insertion
sort is as well.) -/
def get_saving_sessions (events : List SavingSession) (now : Int) :
    List SavingSession :=
  List.insertionSort sessionLE (events.filter (fun e => decide (now < e.endAt)))

/-- Consumption shape from `models.py`: one (nominally half-hourly) meter
reading. -/
structure Consumption where
  start : Nat
  endAt : Nat
  kwh : ℚ
deriving DecidableEq, Repr

/-- Hour of day of a timestamp, 0..23 (`c.start.hour`). -/
def hourOf (t : Nat) : Nat := t % 86400 / 3600

/-- Minute within the hour, 0..59 (`c.start.minute`). -/
def minuteOf (t : Nat) : Nat := t % 3600 / 60

/-- Half-hour slot of a timestamp: `hour * 2 + (1 if minute >= 30 else 0)`
(menubar_server.py:179). -/
def slotOf (t : Nat) : Nat := hourOf t * 2 + (if 30 ≤ minuteOf t then 1 else 0)

/-- The three bucket maps of `MenuBarServer.fetch_data`: `daily`,
`hourly_by_day` and `half_hourly_by_day`, all zero-defaulted
(`defaultdict(float)`), keyed by day number (and hour / slot). -/
structure Buckets where
  daily : Nat → ℚ
  hourly : Nat → Nat → ℚ
  halfHourly : Nat → Nat → ℚ

/-- Loop body of the aggregation loop (menubar_server.py:175-182):
`daily[day] += c.kwh`, `hourly_by_day[day][hour] += c.kwh`,
`half_hourly_by_day[day][slot] = c.kwh` (note: the half-hourly slot is
assigned, not accumulated, exactly as in the source). -/
def bucketStep (b : Buckets) (c : Consumption) : Buckets :=
  let day := dayOf c.start
  let hour := hourOf c.start
  let slot := slotOf c.start
  { daily := fun d => if d = day then b.daily d + c.kwh else b.daily d
    hourly := fun d h =>
      if d = day ∧ h = hour then b.hourly d h + c.kwh else b.hourly d h
    halfHourly := fun d s =>
      if d = day ∧ s = slot then c.kwh else b.halfHourly d s }

/-- Empty buckets (`defaultdict(float)` defaults). -/
def emptyBuckets : Buckets := ⟨fun _ => 0, fun _ _ => 0, fun _ _ => 0⟩

/-- The aggregation loop of `MenuBarServer.fetch_data`
(menubar_server.py:170-182). -/
def aggregate (cs : List Consumption) : Buckets :=
  cs.foldl bucketStep emptyBuckets

/-- The set of day keys of the `daily` dict: the days touched by some
sample, first occurrences in input order. -/
def dayKeys (cs : List Consumption) : List Nat :=
  (cs.map (fun c => dayOf c.start)).dedup

/-- Descending order on day numbers (`sorted(daily.keys(), reverse=True)`). -/
def dayGE (a b : Nat) : Prop := b ≤ a

instance : DecidableRel dayGE := fun a b =>
  inferInstanceAs (Decidable (b ≤ a))

instance : IsTotal Nat dayGE := ⟨fun a b => Nat.le_total b a⟩

instance : IsTrans Nat dayGE := ⟨fun _ _ _ hab hbc => le_trans hbc hab⟩

/-- `sorted_days = sorted(daily.keys(), reverse=True)`
(menubar_server.py:184). -/
def sortedDays (cs : List Consumption) : List Nat :=
  List.insertionSort dayGE (dayKeys cs)

/-- `MenuBarServer._calculate_cost` (menubar_server.py:257-277):
with no tariff, a flat `total_kwh * 0.245`; otherwise the day's kWh split
into off-peak (`sum(hourly.get(h, 0) for h in range(6)) + hourly.get(23, 0)`)
and peak (the remainder), costed at `(off * off_rate + peak * peak_rate) /
100 + standing_charge / 100` with `or`-defaults 7.0 and 30.0. -/
def calculate_cost (total_kwh : ℚ) (hourly : Nat → ℚ) (tariff : Option Tariff) : ℚ :=
  match tariff with
  | none => total_kwh * (245 / 1000)
  | some t =>
    let off_peak_kwh := (List.range 6).foldl (fun a h => a + hourly h) 0 + hourly 23
    let peak_kwh := total_kwh - off_peak_kwh
    let off_rate := pyOr t.off_peak_rate 7
    let peak_rate := pyOr t.peak_rate 30
    (off_peak_kwh * off_rate + peak_kwh * peak_rate) / 100 + t.standing_charge / 100

/-- Round a rational to the nearest integer, ties to even (the rounding of
Python's `round`). -/
def roundHalfEven (q : ℚ) : ℤ :=
  let n := ⌊q⌋
  let f := q - n
  if f < 1 / 2 then n
  else if 1 / 2 < f then n + 1
  else if n % 2 = 0 then n else n + 1

/-- Python's `round(q, ndigits)` on exact rationals. -/
def pyRound (ndigits : Nat) (q : ℚ) : ℚ :=
  (roundHalfEven (q * 10 ^ ndigits) : ℚ) / 10 ^ ndigits

/-- The consumption-derived fields of the `fetch_data` result record. -/
structure FetchResult where
  data_date_latest : Nat
  data_date_previous : Nat
  today_kwh : ℚ
  today_cost : ℚ
  yesterday_kwh : ℚ
  yesterday_cost : ℚ
  off_peak_percentage : ℚ
  monthly_projection : ℚ
deriving DecidableEq, Repr

/-- The consumption branch of `MenuBarServer.fetch_data`
(menubar_server.py:168-250): bucket the samples, pick the most recent and
second most recent day keys (falling back to calendar today/yesterday),
compute the two days' kWh and cost, the off-peak percentage of the most
recent day with data, and the monthly projection. -/
def fetch_data (cs : List Consumption) (tariff : Option Tariff) (now : Nat) :
    FetchResult :=
  let b := aggregate cs
  let keys := dayKeys cs
  let sorted_days := sortedDays cs
  let today := dayOf now
  let yesterday := today - 1
  let display_today := sorted_days.head?.getD today
  let display_yesterday := sorted_days[1]?.getD yesterday
  let today_kwh := if display_today ∈ keys then b.daily display_today else 0
  let today_cost :=
    if display_today ∈ keys then
      calculate_cost (b.daily display_today) (b.hourly display_today) tariff
    else 0
  let yesterday_kwh :=
    if display_yesterday ∈ keys then b.daily display_yesterday else 0
  let yesterday_cost :=
    if display_yesterday ∈ keys then
      calculate_cost (b.daily display_yesterday) (b.hourly display_yesterday) tariff
    else 0
  let off_peak_percentage :=
    if display_today ∈ keys ∧ 0 < today_kwh then
      pyRound 1 ((((List.range 6).foldl
          (fun a h => a + b.hourly display_today h) 0
          + b.hourly display_today 23) / today_kwh) * 100)
    else 0
  let monthly_projection :=
    if 0 < yesterday_cost then pyRound 2 (yesterday_cost * 30)
    else if 0 < today_cost then pyRound 2 (today_cost * 30)
    else 0
  { data_date_latest := display_today
    data_date_previous := display_yesterday
    today_kwh := today_kwh
    today_cost := today_cost
    yesterday_kwh := yesterday_kwh
    yesterday_cost := yesterday_cost
    off_peak_percentage := off_peak_percentage
    monthly_projection := monthly_projection }

/-- 48 half-hourly samples of 0.5 kWh each, covering one full day. -/
def samples48 : List Consumption :=
  (List.range 48).map (fun i => ⟨i * 1800, i * 1800 + 1800, 1 / 2⟩)

/-- The tariff `{offPeakRate=7, peakRate=30, standingCharge=50}` of the
end-to-end cost scenario. -/
def tariffC5 : Tariff := ⟨some 7, some 30, 50⟩

/-- Two samples landing in the same half-hour slot (00:00 and 00:10 of the
same day). -/
def dupSamples : List Consumption := [⟨0, 1800, 1⟩, ⟨600, 1800, 2⟩]

/-- Samples on two consecutive days: 1 kWh at 00:00 of day 0 (off-peak hour)
and 2 kWh at 12:00 of day 1 (peak hour). -/
def twoDaySamples : List Consumption :=
  [⟨0, 1800, 1⟩, ⟨86400 + 12 * 3600, 86400 + 12 * 3600 + 1800, 2⟩]

/-- Characterization of the off-peak flag of `get_current_rate`: off-peak
iff the second-of-day lies in `[84600, 86400) ∪ [0, 19800)`, i.e. in
`[23:30, 24:00) ∪ [00:00, 05:30)`. -/
theorem get_current_rate_is_off_peak (t : Tariff) (now : Nat) :
    (get_current_rate t now).is_off_peak = true ↔
      (84600 ≤ now % 86400 ∨ now % 86400 < 19800) := by
  unfold get_current_rate minuteOfDay
  by_cases h1 : 1410 ≤ now % 86400 / 60 <;> by_cases h2 : now % 86400 / 60 < 330 <;>
    simp [h1, h2] <;> omega

/-- Value of `period_end` in each branch of `get_current_rate`. -/
theorem get_current_rate_period_end (t : Tariff) (now : Nat) :
    (get_current_rate t now).period_end =
      if 1410 ≤ minuteOfDay now then (now / 86400 + 1) * 86400 + 19800
      else if minuteOfDay now < 330 then now / 86400 * 86400 + 19800
      else if now / 86400 * 86400 + 84600 ≤ now then
        now / 86400 * 86400 + 84600 + 86400
      else now / 86400 * 86400 + 84600 := by
  unfold get_current_rate minuteOfDay dayOf
  by_cases h1 : 1410 ≤ now % 86400 / 60 <;> by_cases h2 : now % 86400 / 60 < 330 <;>
    simp [h1, h2]

/-- Claim C1: for every wall-clock instant, `get_current_rate` with the
23:30–05:30 window reports off-peak iff the instant's time of day lies in
`[23:30, 24:00) ∪ [00:00, 05:30)` (in seconds of day:
`[84600, 86400) ∪ [0, 19800)`); at the boundaries, 23:30 exactly is
off-peak and 05:30 exactly is peak. -/
theorem C1_off_peak_window :
    (∀ (t : Tariff) (now : Nat),
      (get_current_rate t now).is_off_peak = true ↔
        (84600 ≤ now % 86400 ∨ now % 86400 < 19800))
    ∧ (∀ (t : Tariff) (d : Nat),
        (get_current_rate t (d * 86400 + 84600)).is_off_peak = true)
    ∧ (∀ (t : Tariff) (d : Nat),
        (get_current_rate t (d * 86400 + 19800)).is_off_peak = false) := by
  refine ⟨get_current_rate_is_off_peak, fun t d => ?_, fun t d => ?_⟩
  · rw [get_current_rate_is_off_peak]
    omega
  · rw [← Bool.not_eq_true, get_current_rate_is_off_peak]
    omega

/-- Claim C4: for every `now` and every tariff, `period_end` is strictly
later than `now`, and `get_current_rate` re-invoked at `period_end - 1`
second reports the same off-peak/peak band as at `now`. -/
theorem C4_period_end_future_same_band (t : Tariff) (now : Nat) :
    now < (get_current_rate t now).period_end ∧
    (get_current_rate t ((get_current_rate t now).period_end - 1)).is_off_peak
      = (get_current_rate t now).is_off_peak := by
  have hpe := get_current_rate_period_end t now
  have hprev := get_current_rate_is_off_peak t
    ((get_current_rate t now).period_end - 1)
  have hnow := get_current_rate_is_off_peak t now
  constructor
  · rw [hpe]
    split_ifs <;> simp only [minuteOfDay] at * <;> omega
  · have hb : ∀ a b : Bool, ((a = true) ↔ (b = true)) → a = b := by decide
    apply hb
    rw [hprev, hnow, hpe]
    split_ifs <;> simp only [minuteOfDay] at * <;> omega

/-- Claim C2 counterexample: on `[{10:00, 11:00}, {14:00, 15:00}]` at
`now = 10:30`, the claim says `next = None`, but the code selects
`{14:00, 15:00}` as the next dispatch (its start `14:00` is after `now` and
no next dispatch has been recorded yet). -/
theorem C2_counterexample :
    (get_dispatch_status dispatchScenario 630).next_dispatch ≠ none := by
  decide

/-- Claim C2 amended: on the sorted list `[{10:00, 11:00}, {14:00, 15:00}]`,
at `now = 10:30` current is `{10:00, 11:00}` and next is `{14:00, 15:00}`
(not `None`); at `now = 9:00` current is `None` and next is `{10:00, 11:00}`;
at `now = 11:00` exactly, current is still `{10:00, 11:00}` (the containment
test is closed at both endpoints). -/
theorem C2_amended :
    (get_dispatch_status dispatchScenario 630).current_dispatch
        = some ⟨600, 660, "smart-charge"⟩
    ∧ (get_dispatch_status dispatchScenario 630).next_dispatch
        = some ⟨840, 900, "smart-charge"⟩
    ∧ (get_dispatch_status dispatchScenario 540).current_dispatch = none
    ∧ (get_dispatch_status dispatchScenario 540).next_dispatch
        = some ⟨600, 660, "smart-charge"⟩
    ∧ (get_dispatch_status dispatchScenario 660).current_dispatch
        = some ⟨600, 660, "smart-charge"⟩ := by
  decide

/-- The `current` component of the reconciliation fold is the last matching
dispatch of the scanned list, or the accumulator's `current` when none
matches. -/
theorem foldl_dispatchStep_fst (now : Int) :
    ∀ (ds : List Dispatch) (acc : Option Dispatch × Option Dispatch),
      (ds.foldl (dispatchStep now) acc).1 =
        match lastMatching now ds with
        | some e => some e
        | none => acc.1 := by
  intro ds
  induction ds with
  | nil => intro acc; rfl
  | cons d rest ih =>
    intro acc
    simp only [List.foldl_cons, ih, lastMatching]
    cases h : lastMatching now rest with
    | some e => rfl
    | none =>
      simp only [dispatchStep]
      split_ifs with h1 h2 <;> rfl

/-- Claim C3 counterexample: with the overlapping (still sorted-by-start)
list `[{10:00, 11:00}, {10:00, 12:00}]` at `now = 10:30`, both intervals
contain `now`, and the code selects the SECOND matching interval as current:
the later match overwrites the earlier one, so "the first matching interval
in scan order is the one selected" is false. -/
theorem C3_counterexample :
    (get_dispatch_status [⟨600, 660, "a"⟩, ⟨600, 720, "b"⟩] 630).current_dispatch
        = some ⟨600, 720, "b"⟩
    ∧ (⟨600, 720, "b"⟩ : Dispatch) ≠ ⟨600, 660, "a"⟩ := by
  decide

/-- Claim C3 amended: at most one dispatch is selected as current, and when
several dispatches in the input list contain `now`, the LAST matching
interval in scan order is the one selected as current (each later match
overwrites the earlier one). -/
theorem C3_amended (ds : List Dispatch) (now : Int) :
    (get_dispatch_status ds now).current_dispatch = lastMatching now ds := by
  show (ds.foldl (dispatchStep now) (none, none)).1 = lastMatching now ds
  rw [foldl_dispatchStep_fst]
  cases lastMatching now ds <;> rfl

/-- Claim C9: the saving-session filter removes every event whose
(timezone-stripped) end is at or before `now`, keeps every event whose end is
strictly after `now`, and returns the survivors sorted ascending by start:
the result is a permutation of the kept events, it is sorted by `start`, and
an event is in the result iff it is an input event ending strictly after
`now`. -/
theorem C9_saving_session_filter (events : List SavingSession) (now : Int) :
    ((get_saving_sessions events now).Perm
        (events.filter (fun e => decide (now < e.endAt))))
    ∧ List.Sorted sessionLE (get_saving_sessions events now)
    ∧ (∀ e : SavingSession,
        e ∈ get_saving_sessions events now ↔ (e ∈ events ∧ now < e.endAt)) := by
  refine ⟨List.perm_insertionSort _ _, List.sorted_insertionSort _ _,
    fun e => ?_⟩
  unfold get_saving_sessions
  rw [List.mem_insertionSort, List.mem_filter]
  simp

/-- The source's `sum(hourly.get(h, 0) for h in range(6))` as a
`Finset.range` sum. -/
theorem offPeak_foldl_eq (hourly : Nat → ℚ) :
    (List.range 6).foldl (fun a h => a + hourly h) 0 =
      ∑ h in Finset.range 6, hourly h := by
  simp [List.range_succ, Finset.sum_range_succ]

set_option maxHeartbeats 1000000 in
/-- Evaluation of the 48-sample end-to-end scenario: the most recent day's
cost is 6.09. -/
theorem samples48_today_cost :
    (fetch_data samples48 (some tariffC5) (2 * 86400)).today_cost = 609 / 100 := by
  norm_num [fetch_data, samples48, sortedDays, dayKeys, aggregate, bucketStep,
    emptyBuckets, calculate_cost, pyOr, dayOf, hourOf, minuteOf, slotOf,
    tariffC5, List.range_succ, List.insertionSort, List.orderedInsert, dayGE]

/-- Claim C5 counterexample: on the 48 half-hourly samples of 0.5 kWh with
tariff `{offPeakRate=7, peakRate=30, standingCharge=50}`, the computed daily
cost is 6.09, not the claimed 3.295: each off-peak hour holds TWO half-hour
samples, so off-peak kWh is 7, peak kWh is 17, and
`(7*7 + 17*30)/100 + 50/100 = 6.09`. -/
theorem C5_counterexample :
    (fetch_data samples48 (some tariffC5) (2 * 86400)).today_cost = 609 / 100
    ∧ (609 / 100 : ℚ) ≠ 3295 / 1000 := by
  refine ⟨samples48_today_cost, by norm_num⟩

/-- Claim C5 amended: daily cost is
`(offPeakKwh*offPeakRate + peakKwh*peakRate)/100 + standingCharge/100`
with `offPeakKwh` the sum of the hour buckets `{0,..,5,23}` and `peakKwh`
the remainder of the day's total; with no tariff it is `totalKwh * 0.245`;
and the 48-sample scenario with tariff
`{offPeakRate=7, peakRate=30, standingCharge=50}` yields cost 6.09. -/
theorem C5_amended :
    (∀ (total : ℚ) (hourly : Nat → ℚ) (t : Tariff),
      calculate_cost total hourly (some t) =
        ((∑ h in Finset.range 6, hourly h + hourly 23) * pyOr t.off_peak_rate 7
          + (total - (∑ h in Finset.range 6, hourly h + hourly 23))
            * pyOr t.peak_rate 30) / 100
          + t.standing_charge / 100)
    ∧ (∀ (total : ℚ) (hourly : Nat → ℚ),
        calculate_cost total hourly none = total * (245 / 1000))
    ∧ (fetch_data samples48 (some tariffC5) (2 * 86400)).today_cost = 609 / 100 := by
  refine ⟨fun total hourly t => ?_, fun _ _ => rfl, samples48_today_cost⟩
  simp only [calculate_cost]
  rw [offPeak_foldl_eq]

/-- Bucket invariant: the 24 hour buckets of any day sum to that day's daily
bucket, and folding the aggregation step preserves this. -/
theorem aggregate_hourly_sum_aux :
    ∀ (cs : List Consumption) (b : Buckets),
      (∀ d, ∑ h in Finset.range 24, b.hourly d h = b.daily d) →
      ∀ d, ∑ h in Finset.range 24, (cs.foldl bucketStep b).hourly d h
        = (cs.foldl bucketStep b).daily d := by
  intro cs
  induction cs with
  | nil => intro b hb d; exact hb d
  | cons c rest ih =>
    intro b hb d
    rw [List.foldl_cons]
    refine ih _ (fun d' => ?_) d
    simp only [bucketStep]
    by_cases hd : d' = dayOf c.start
    · subst hd
      have hhour : hourOf c.start < 24 := by unfold hourOf; omega
      have hcong : ∀ h ∈ Finset.range 24,
          (if dayOf c.start = dayOf c.start ∧ h = hourOf c.start
            then b.hourly (dayOf c.start) h + c.kwh
            else b.hourly (dayOf c.start) h)
          = b.hourly (dayOf c.start) h
            + (if h = hourOf c.start then c.kwh else 0) := by
        intro h _
        by_cases hh : h = hourOf c.start <;> simp [hh]
      rw [Finset.sum_congr rfl hcong, Finset.sum_add_distrib, hb]
      simp [Finset.sum_ite_eq', hhour]
    · have hcong : ∀ h ∈ Finset.range 24,
          (if d' = dayOf c.start ∧ h = hourOf c.start
            then b.hourly d' h + c.kwh else b.hourly d' h) = b.hourly d' h := by
        intro h _
        simp [hd]
      rw [Finset.sum_congr rfl hcong, hb]
      simp [hd]

/-- For the aggregation of any sample list, each day's 24 hour buckets sum to
the day's total. -/
theorem aggregate_hourly_sum (cs : List Consumption) (d : Nat) :
    ∑ h in Finset.range 24, (aggregate cs).hourly d h = (aggregate cs).daily d :=
  aggregate_hourly_sum_aux cs emptyBuckets (fun _ => by simp [emptyBuckets]) d

/-- Claim C6: for any list of consumption samples and every calendar day
appearing in the aggregation, the sum of that day's 24 hourly bucket values
equals that day's total kWh (exactly, in the rational embedding). -/
theorem C6_hourly_roundtrip (cs : List Consumption) (day : Nat)
    (hday : day ∈ dayKeys cs) :
    ∑ h in Finset.range 24, (aggregate cs).hourly day h
      = (aggregate cs).daily day :=
  aggregate_hourly_sum cs day

/-- Witness for C6 at a concrete input. -/
theorem C6_witness :
    0 ∈ dayKeys [(⟨0, 1800, 1 / 2⟩ : Consumption)]
    ∧ ∑ h in Finset.range 24,
        (aggregate [(⟨0, 1800, 1 / 2⟩ : Consumption)]).hourly 0 h
      = (aggregate [(⟨0, 1800, 1 / 2⟩ : Consumption)]).daily 0 :=
  ⟨by decide, C6_hourly_roundtrip [(⟨0, 1800, 1 / 2⟩ : Consumption)] 0 (by decide)⟩

/-- Claim C7 counterexample: two samples of the same day map to the same
half-hour slot 0 (starts 00:00 and 00:10), yet the slot's value is the
second sample's 2 kWh, not the sum 3: the source assigns
(`half_hourly_by_day[day][slot] = c.kwh`) instead of accumulating. -/
theorem C7_counterexample :
    dayOf 0 = dayOf 600 ∧ slotOf 0 = slotOf 600
    ∧ (aggregate dupSamples).halfHourly 0 0 = 2
    ∧ (2 : ℚ) ≠ 1 + 2 := by
  refine ⟨by decide, by decide, ?_, by norm_num⟩
  norm_num [aggregate, dupSamples, bucketStep, emptyBuckets, dayOf, hourOf,
    minuteOf, slotOf]

/-- Claim C7 amended: each sample adds its kWh to the daily bucket of
`intervalStart`'s calendar date and to the hour bucket `intervalStart.hour`,
but the half-hour slot `hour*2 + (1 if minute>=30 else 0)` is assigned, not
accumulated: after processing a sample, the slot holds exactly that sample's
kWh, so of two samples in the same slot of the same day the later one wins. -/
theorem C7_amended (cs : List Consumption) (c : Consumption) :
    (aggregate (cs ++ [c])).daily (dayOf c.start)
        = (aggregate cs).daily (dayOf c.start) + c.kwh
    ∧ (aggregate (cs ++ [c])).hourly (dayOf c.start) (hourOf c.start)
        = (aggregate cs).hourly (dayOf c.start) (hourOf c.start) + c.kwh
    ∧ (aggregate (cs ++ [c])).halfHourly (dayOf c.start) (slotOf c.start)
        = c.kwh := by
  unfold aggregate
  rw [List.foldl_append]
  simp [bucketStep]

/-- Claim C8 counterexample: with data on two days, the most recent day's
cost is 1.10 but the projection is `round(0.57 * 30, 2) = 17.1`, thirty
times the SECOND most recent day's cost, not `1.10 * 30 = 33`. -/
theorem C8_counterexample :
    (fetch_data twoDaySamples (some tariffC5) (3 * 86400)).monthly_projection
        = 171 / 10
    ∧ (fetch_data twoDaySamples (some tariffC5) (3 * 86400)).today_cost * 30
        = 33
    ∧ (171 / 10 : ℚ) ≠ 33 := by
  refine ⟨?_, ?_, by norm_num⟩ <;>
    norm_num [fetch_data, twoDaySamples, sortedDays, dayKeys, aggregate,
      bucketStep, emptyBuckets, calculate_cost, pyOr, dayOf, hourOf, minuteOf,
      slotOf, tariffC5, List.range_succ, List.insertionSort, List.orderedInsert,
      dayGE, pyRound, roundHalfEven]

/-- Claim C8 amended: the monthly projection is
`round(secondMostRecentDayCost * 30, 2)` whenever that cost is positive,
else `round(mostRecentDayCost * 30, 2)` when that is positive, else 0:
the code prefers the cost of the second most recent day with data
(its "yesterday"). -/
theorem C8_amended (cs : List Consumption) (t : Option Tariff) (now : Nat) :
    (fetch_data cs t now).monthly_projection =
      if 0 < (fetch_data cs t now).yesterday_cost then
        pyRound 2 ((fetch_data cs t now).yesterday_cost * 30)
      else if 0 < (fetch_data cs t now).today_cost then
        pyRound 2 ((fetch_data cs t now).today_cost * 30)
      else 0 := rfl

/-- Folding the aggregation step over samples with nonnegative kWh keeps
every daily and hourly bucket nonnegative. -/
theorem aggregate_nonneg_aux :
    ∀ (cs : List Consumption) (b : Buckets),
      (∀ c ∈ cs, 0 ≤ c.kwh) →
      (∀ d, 0 ≤ b.daily d) → (∀ d h, 0 ≤ b.hourly d h) →
      (∀ d, 0 ≤ (cs.foldl bucketStep b).daily d)
      ∧ (∀ d h, 0 ≤ (cs.foldl bucketStep b).hourly d h) := by
  intro cs
  induction cs with
  | nil => intro b _ hd hh; exact ⟨hd, hh⟩
  | cons c rest ih =>
    intro b hk hd hh
    rw [List.foldl_cons]
    have h0 : 0 ≤ c.kwh := hk c (List.mem_cons_self _ _)
    refine ih _ (fun c' hc' => hk c' (List.mem_cons_of_mem _ hc')) ?_ ?_
    · intro d
      simp only [bucketStep]
      split_ifs
      · exact add_nonneg (hd d) h0
      · exact hd d
    · intro d h
      simp only [bucketStep]
      split_ifs
      · exact add_nonneg (hh d h) h0
      · exact hh d h

/-- All daily and hourly buckets of the aggregation are nonnegative when
every sample's kWh is. -/
theorem aggregate_nonneg (cs : List Consumption) (hk : ∀ c ∈ cs, 0 ≤ c.kwh) :
    (∀ d, 0 ≤ (aggregate cs).daily d)
    ∧ (∀ d h, 0 ≤ (aggregate cs).hourly d h) :=
  aggregate_nonneg_aux cs emptyBuckets hk (fun _ => le_refl 0)
    (fun _ _ => le_refl 0)

/-- The off-peak hour set `{0,..,5,23}` sums a subset of a day's 24 hour
buckets, so with nonnegative samples its total is at most the day's total. -/
theorem offPeak_le_daily (cs : List Consumption) (d : Nat)
    (hk : ∀ c ∈ cs, 0 ≤ c.kwh) :
    (List.range 6).foldl (fun a h => a + (aggregate cs).hourly d h) 0
      + (aggregate cs).hourly d 23 ≤ (aggregate cs).daily d := by
  have hh := (aggregate_nonneg cs hk).2
  have hsum := aggregate_hourly_sum cs d
  rw [offPeak_foldl_eq, ← hsum]
  simp only [Finset.sum_range_succ, Finset.sum_range_zero]
  linarith [hh d 6, hh d 7, hh d 8, hh d 9, hh d 10, hh d 11, hh d 12,
    hh d 13, hh d 14, hh d 15, hh d 16, hh d 17, hh d 18, hh d 19, hh d 20,
    hh d 21, hh d 22]

/-- Half-even rounding of a nonnegative rational is nonnegative. -/
theorem roundHalfEven_nonneg (q : ℚ) (hq : 0 ≤ q) : 0 ≤ roundHalfEven q := by
  simp only [roundHalfEven]
  have h0 : (0 : ℤ) ≤ ⌊q⌋ := Int.floor_nonneg.mpr hq
  split_ifs <;> omega

/-- Half-even rounding never exceeds an integer upper bound of its input. -/
theorem roundHalfEven_le (q : ℚ) (B : ℤ) (hq : q ≤ B) :
    roundHalfEven q ≤ B := by
  simp only [roundHalfEven]
  have hfl : ⌊q⌋ ≤ B := by
    have h1 : (⌊q⌋ : ℚ) ≤ (B : ℚ) := le_trans (Int.floor_le q) hq
    exact_mod_cast h1
  have hflq : (⌊q⌋ : ℚ) ≤ q := Int.floor_le q
  split_ifs with h1 h2 h3
  · exact hfl
  · have hlt : (⌊q⌋ : ℚ) < (B : ℚ) := by linarith
    have : ⌊q⌋ < B := by exact_mod_cast hlt
    omega
  · exact hfl
  · have heq : q - (⌊q⌋ : ℚ) = 1 / 2 := by linarith
    have hlt : (⌊q⌋ : ℚ) < (B : ℚ) := by linarith
    have : ⌊q⌋ < B := by exact_mod_cast hlt
    omega

/-- `round(q, n)` of a nonnegative rational is nonnegative. -/
theorem pyRound_nonneg (n : Nat) (q : ℚ) (hq : 0 ≤ q) : 0 ≤ pyRound n q := by
  unfold pyRound
  apply div_nonneg
  · have h := roundHalfEven_nonneg (q * 10 ^ n) (by positivity)
    exact_mod_cast h
  · positivity

/-- `round(q, 1)` never exceeds 100 when `q` does not. -/
theorem pyRound_one_le_100 (q : ℚ) (hq : q ≤ 100) : pyRound 1 q ≤ 100 := by
  unfold pyRound
  rw [div_le_iff (by norm_num : (0 : ℚ) < 10 ^ 1)]
  have h := roundHalfEven_le (q * 10 ^ 1) 1000 (by push_cast; linarith)
  have h2 : ((roundHalfEven (q * 10 ^ 1) : ℤ) : ℚ) ≤ (1000 : ℤ) := by
    exact_mod_cast h
  push_cast at h2 ⊢
  linarith

/-- The `off_peak_percentage` field of `fetch_data`, written out
(definitional unfolding). -/
theorem fetch_off_peak_percentage_eq (cs : List Consumption)
    (t : Option Tariff) (now : Nat) :
    (fetch_data cs t now).off_peak_percentage =
      if (sortedDays cs).head?.getD (dayOf now) ∈ dayKeys cs ∧
          0 < (if (sortedDays cs).head?.getD (dayOf now) ∈ dayKeys cs then
                (aggregate cs).daily ((sortedDays cs).head?.getD (dayOf now))
              else 0) then
        pyRound 1 ((((List.range 6).foldl
            (fun a h => a
              + (aggregate cs).hourly ((sortedDays cs).head?.getD (dayOf now)) h)
            0
            + (aggregate cs).hourly ((sortedDays cs).head?.getD (dayOf now)) 23)
            / (if (sortedDays cs).head?.getD (dayOf now) ∈ dayKeys cs then
                (aggregate cs).daily ((sortedDays cs).head?.getD (dayOf now))
              else 0)) * 100)
      else 0 := rfl

/-- Claim C10: whenever every consumption sample's kWh is nonnegative, the
`off_peak_percentage` of the snapshot lies in `[0, 100]`: it is only computed
when the selected day's total is strictly positive, and the off-peak hour set
`{0,..,5,23}` sums a subset of the hour buckets, whose total cannot exceed
the day's total. -/
theorem C10_off_peak_percentage_range (cs : List Consumption)
    (t : Option Tariff) (now : Nat) (hk : ∀ c ∈ cs, 0 ≤ c.kwh) :
    0 ≤ (fetch_data cs t now).off_peak_percentage
    ∧ (fetch_data cs t now).off_peak_percentage ≤ 100 := by
  rw [fetch_off_peak_percentage_eq]
  by_cases hmem : (sortedDays cs).head?.getD (dayOf now) ∈ dayKeys cs
  · simp only [hmem, if_true, true_and]
    by_cases hpos :
        0 < (aggregate cs).daily ((sortedDays cs).head?.getD (dayOf now))
    · rw [if_pos hpos]
      have hh := (aggregate_nonneg cs hk).2
      have hoff0 : 0 ≤ (List.range 6).foldl
          (fun a h => a
            + (aggregate cs).hourly ((sortedDays cs).head?.getD (dayOf now)) h)
          0
          + (aggregate cs).hourly ((sortedDays cs).head?.getD (dayOf now)) 23 := by
        rw [offPeak_foldl_eq]
        exact add_nonneg
          (Finset.sum_nonneg fun i _ => hh _ i) (hh _ 23)
      have hoffle := offPeak_le_daily cs ((sortedDays cs).head?.getD (dayOf now)) hk
      have hx0 : 0 ≤ ((List.range 6).foldl
          (fun a h => a
            + (aggregate cs).hourly ((sortedDays cs).head?.getD (dayOf now)) h)
          0
          + (aggregate cs).hourly ((sortedDays cs).head?.getD (dayOf now)) 23)
          / (aggregate cs).daily ((sortedDays cs).head?.getD (dayOf now)) * 100 := by
        apply mul_nonneg _ (by norm_num)
        exact div_nonneg hoff0 (le_of_lt hpos)
      have hx100 : ((List.range 6).foldl
          (fun a h => a
            + (aggregate cs).hourly ((sortedDays cs).head?.getD (dayOf now)) h)
          0
          + (aggregate cs).hourly ((sortedDays cs).head?.getD (dayOf now)) 23)
          / (aggregate cs).daily ((sortedDays cs).head?.getD (dayOf now)) * 100
          ≤ 100 := by
        have h1 := (div_le_one hpos).mpr hoffle
        linarith
      exact ⟨pyRound_nonneg 1 _ hx0, pyRound_one_le_100 _ hx100⟩
    · rw [if_neg hpos]
      norm_num
  · simp only [hmem, if_false, false_and]
    norm_num

/-- Witness for C10 at a concrete input. -/
theorem C10_witness :
    (∀ c ∈ ([⟨0, 1800, 1⟩] : List Consumption), 0 ≤ c.kwh)
    ∧ (0 ≤ (fetch_data [⟨0, 1800, 1⟩] none 0).off_peak_percentage
        ∧ (fetch_data [⟨0, 1800, 1⟩] none 0).off_peak_percentage ≤ 100) :=
  ⟨by simp, C10_off_peak_percentage_range [⟨0, 1800, 1⟩] none 0 (by simp)⟩
